import Mathlib

/-!
Shallow embedding of `src/brownian_motion.py` (class `BrownianRobot`).

The Python class keeps a mutable state (position, heading, parameters and
three history lists); we model it as the structure `RobotState` and each
method as a pure function on it.  Randomness is made explicit: the normal
speed multiplier drawn at line 24 and the uniform heading draws at lines 34
and 37 become parameters of `move`.  Since the two heading draws are
performed by two independent `if` blocks, `move` receives the next two
values `a1 a2` of the uniform stream and additionally returns how many of
them were consumed, so that claims about the number of draws can be stated.
Python floats are modelled as real numbers.
-/

namespace BrownianMotion

open Classical

/-- The mutable attributes of a `BrownianRobot` instance. -/
structure RobotState where
  arena_size : ℝ
  speed : ℝ
  dt : ℝ
  x : ℝ
  y : ℝ
  angle : ℝ
  x_history : List ℝ
  y_history : List ℝ
  speed_history : List ℝ

/-- `np.clip(v, lo, hi)`: equivalent to `min(hi, max(v, lo))`. -/
noncomputable def clip (v lo hi : ℝ) : ℝ := min hi (max v lo)

/-- `BrownianRobot.__init__(arena_size, speed, dt)` (lines 8-20).  The
position starts at the arena center; `a0` models the initial heading drawn
by `random.uniform(0, 2*np.pi)` at line 16; the histories are seeded with
the initial position and the base speed.  The constructor performs no
validation of its parameters. -/
noncomputable def init (arena_size speed dt a0 : ℝ) : RobotState :=
  { arena_size := arena_size
    speed := speed
    dt := dt
    x := arena_size / 2
    y := arena_size / 2
    angle := a0
    x_history := [arena_size / 2]
    y_history := [arena_size / 2]
    speed_history := [speed] }

/-- Lines 24-25: `speed_variation = np.random.normal(1, 0.1) * self.speed`
(with `mult` the normal draw) and
`current_speed = max(0.05, min(self.speed * 2, speed_variation))`. -/
noncomputable def current_speed (s : RobotState) (mult : ℝ) : ℝ :=
  max 0.05 (min (s.speed * 2) (mult * s.speed))

/-- Line 27 and 29: candidate x, `self.x + current_speed * cos(angle) * dt`. -/
noncomputable def new_x (s : RobotState) (mult : ℝ) : ℝ :=
  s.x + current_speed s mult * Real.cos s.angle * s.dt

/-- Line 28 and 30: candidate y, `self.y + current_speed * sin(angle) * dt`. -/
noncomputable def new_y (s : RobotState) (mult : ℝ) : ℝ :=
  s.y + current_speed s mult * Real.sin s.angle * s.dt

/-- Line 33: the x-axis collision test `new_x <= 0 or new_x >= self.arena_size`. -/
def collX (s : RobotState) (mult : ℝ) : Prop :=
  new_x s mult ≤ 0 ∨ new_x s mult ≥ s.arena_size

/-- Line 36: the y-axis collision test `new_y <= 0 or new_y >= self.arena_size`. -/
def collY (s : RobotState) (mult : ℝ) : Prop :=
  new_y s mult ≤ 0 ∨ new_y s mult ≥ s.arena_size

/-- Lines 40-45: the committed x.  On a collision (either axis) the
candidate is clamped with `np.clip(new_x, 0, self.arena_size)`, otherwise
it is committed as-is. -/
noncomputable def committedX (s : RobotState) (mult : ℝ) : ℝ :=
  if collX s mult ∨ collY s mult then clip (new_x s mult) 0 s.arena_size
  else new_x s mult

/-- Lines 40-45: the committed y, clamped exactly when a collision occurred
on either axis. -/
noncomputable def committedY (s : RobotState) (mult : ℝ) : ℝ :=
  if collX s mult ∨ collY s mult then clip (new_y s mult) 0 s.arena_size
  else new_y s mult

/-- Lines 33-38: the heading after the step.  The code runs two sequential
`if` blocks: an x-collision assigns a fresh uniform draw (`a1`), then a
y-collision assigns another fresh draw (the next one of the stream: `a2` if
the x draw already happened, else `a1`), overwriting the first. -/
noncomputable def newAngle (s : RobotState) (mult a1 a2 : ℝ) : ℝ :=
  if collY s mult then (if collX s mult then a2 else a1)
  else if collX s mult then a1 else s.angle

/-- How many uniform heading draws the step consumes: one per colliding
axis (lines 34 and 37 each call `random.uniform`). -/
noncomputable def drawsUsed (s : RobotState) (mult : ℝ) : ℕ :=
  (if collX s mult then 1 else 0) + (if collY s mult then 1 else 0)

/-- `BrownianRobot.move()` (lines 22-49) with the randomness explicit:
`mult` is the `np.random.normal(1, 0.1)` draw, `a1 a2` are the next two
values of the `random.uniform(0, 2*np.pi)` stream.  Returns the updated
state paired with the number of uniform draws consumed. -/
noncomputable def move (s : RobotState) (mult a1 a2 : ℝ) : RobotState × ℕ :=
  ({ s with
      x := committedX s mult
      y := committedY s mult
      angle := newAngle s mult a1 a2
      x_history := s.x_history ++ [committedX s mult]
      y_history := s.y_history ++ [committedY s mult]
      speed_history := s.speed_history ++ [current_speed s mult] },
   drawsUsed s mult)

/-- One step's worth of random inputs: the normal multiplier and the next
two values of the uniform heading stream. -/
structure Draw where
  mult : ℝ
  a1 : ℝ
  a2 : ℝ

/-- A sequence of `move()` calls, one per element of the draw list. -/
noncomputable def run (s : RobotState) : List Draw → RobotState
  | [] => s
  | d :: ds => run (move s d.mult d.a1 d.a2).1 ds

/-- `BrownianRobot.get_position()` (lines 51-53). -/
def get_position (s : RobotState) : ℝ × ℝ := (s.x, s.y)

/-- The mapping returned by `get_stats()`. -/
structure Stats where
  total_distance : ℝ
  avg_speed : ℝ
  collisions : ℕ

/-- Lines 57-61: sum over `i in range(len(x_history) - 1)` of the Euclidean
distance between consecutive history points. -/
noncomputable def totalDistance (xs ys : List ℝ) : ℝ :=
  ∑ i in Finset.range (xs.length - 1),
    Real.sqrt ((xs.getD (i + 1) 0 - xs.getD i 0) ^ 2 +
      (ys.getD (i + 1) 0 - ys.getD i 0) ^ 2)

/-- `np.mean`: the sum of the entries divided by their number. -/
noncomputable def avgSpeed (l : List ℝ) : ℝ := l.sum / l.length

/-- Lines 65-69: the number of history indices whose x or y entry is
`<= 0` or `>= arena_size`. -/
noncomputable def collisionCount (a : ℝ) (xs ys : List ℝ) : ℕ :=
  ∑ i in Finset.range xs.length,
    if xs.getD i 0 ≤ 0 ∨ xs.getD i 0 ≥ a ∨ ys.getD i 0 ≤ 0 ∨ ys.getD i 0 ≥ a
    then 1 else 0

/-- `BrownianRobot.get_stats()` (lines 55-70). -/
noncomputable def get_stats (s : RobotState) : Stats :=
  { total_distance := totalDistance s.x_history s.y_history
    avg_speed := avgSpeed s.speed_history
    collisions := collisionCount s.arena_size s.x_history s.y_history }

/-- The spec's `position_history`: the x and y history lists zipped into a
single list of points. -/
def posHistory (s : RobotState) : List (ℝ × ℝ) := s.x_history.zip s.y_history

/-- Modelled from the spec's wording for `total_distance`: the sum of the
Euclidean distances between each consecutive pair of positions in
`position_history`; 0 for a history with fewer than two entries. -/
noncomputable def pathLength : List (ℝ × ℝ) → ℝ
  | p :: q :: rest =>
      Real.sqrt ((q.1 - p.1) ^ 2 + (q.2 - p.2) ^ 2) + pathLength (q :: rest)
  | _ => 0

/-- Modelled from the spec's wording for `collisions`: the number of history
entries whose x or y coordinate equals exactly 0 or exactly `arena_size`. -/
noncomputable def boundaryTouchCount (a : ℝ) (xs ys : List ℝ) : ℕ :=
  ∑ i in Finset.range xs.length,
    if xs.getD i 0 = 0 ∨ xs.getD i 0 = a ∨ ys.getD i 0 = 0 ∨ ys.getD i 0 = a
    then 1 else 0

/-! ### Basic lemmas about a single step and about runs -/

lemma move_arena (s : RobotState) (m a1 a2 : ℝ) :
    (move s m a1 a2).1.arena_size = s.arena_size := rfl

lemma move_speed (s : RobotState) (m a1 a2 : ℝ) :
    (move s m a1 a2).1.speed = s.speed := rfl

lemma move_x_history (s : RobotState) (m a1 a2 : ℝ) :
    (move s m a1 a2).1.x_history = s.x_history ++ [committedX s m] := rfl

lemma move_y_history (s : RobotState) (m a1 a2 : ℝ) :
    (move s m a1 a2).1.y_history = s.y_history ++ [committedY s m] := rfl

lemma move_speed_history (s : RobotState) (m a1 a2 : ℝ) :
    (move s m a1 a2).1.speed_history = s.speed_history ++ [current_speed s m] := rfl

lemma run_cons (s : RobotState) (d : Draw) (ds : List Draw) :
    run s (d :: ds) = run (move s d.mult d.a1 d.a2).1 ds := rfl

lemma run_arena (ds : List Draw) (s : RobotState) :
    (run s ds).arena_size = s.arena_size := by
  induction ds generalizing s with
  | nil => rfl
  | cons d ds ih => rw [run_cons, ih, move_arena]

lemma run_speed (ds : List Draw) (s : RobotState) :
    (run s ds).speed = s.speed := by
  induction ds generalizing s with
  | nil => rfl
  | cons d ds ih => rw [run_cons, ih, move_speed]

lemma run_lengths (ds : List Draw) (s : RobotState) :
    (run s ds).x_history.length = s.x_history.length + ds.length ∧
    (run s ds).y_history.length = s.y_history.length + ds.length ∧
    (run s ds).speed_history.length = s.speed_history.length + ds.length := by
  induction ds generalizing s with
  | nil => simp [run]
  | cons d ds ih =>
    obtain ⟨h1, h2, h3⟩ := ih (move s d.mult d.a1 d.a2).1
    rw [run_cons]
    simp only [move_x_history, move_y_history, move_speed_history,
      List.length_append, List.length_singleton, List.length_cons,
      List.length_nil] at h1 h2 h3 ⊢
    omega

/-! ### The boundary containment invariant -/

/-- All recorded coordinates lie in the arena `[0, a]`. -/
def InArena (a : ℝ) (s : RobotState) : Prop :=
  (∀ v ∈ s.x_history, 0 ≤ v ∧ v ≤ a) ∧ (∀ v ∈ s.y_history, 0 ≤ v ∧ v ≤ a)

lemma committedX_bounds (s : RobotState) (m : ℝ) (ha : 0 ≤ s.arena_size) :
    0 ≤ committedX s m ∧ committedX s m ≤ s.arena_size := by
  unfold committedX
  split_ifs with h
  · exact ⟨le_min ha (le_max_right _ _), min_le_left _ _⟩
  · rw [not_or] at h
    obtain ⟨hx, -⟩ := h
    unfold collX at hx
    push_neg at hx
    exact ⟨le_of_lt hx.1, le_of_lt hx.2⟩

lemma committedY_bounds (s : RobotState) (m : ℝ) (ha : 0 ≤ s.arena_size) :
    0 ≤ committedY s m ∧ committedY s m ≤ s.arena_size := by
  unfold committedY
  split_ifs with h
  · exact ⟨le_min ha (le_max_right _ _), min_le_left _ _⟩
  · rw [not_or] at h
    obtain ⟨-, hy⟩ := h
    unfold collY at hy
    push_neg at hy
    exact ⟨le_of_lt hy.1, le_of_lt hy.2⟩

lemma move_inArena (a : ℝ) (s : RobotState) (m a1 a2 : ℝ) (ha : 0 ≤ a)
    (hs : s.arena_size = a) (h : InArena a s) :
    InArena a (move s m a1 a2).1 := by
  obtain ⟨hx, hy⟩ := h
  constructor
  · intro v hv
    rw [move_x_history, List.mem_append, List.mem_singleton] at hv
    rcases hv with hv | hv
    · exact hx v hv
    · subst hv
      simpa [hs] using committedX_bounds s m (hs ▸ ha)
  · intro v hv
    rw [move_y_history, List.mem_append, List.mem_singleton] at hv
    rcases hv with hv | hv
    · exact hy v hv
    · subst hv
      simpa [hs] using committedY_bounds s m (hs ▸ ha)

lemma run_inArena (a : ℝ) (ds : List Draw) (s : RobotState) (ha : 0 ≤ a)
    (hs : s.arena_size = a) (h : InArena a s) :
    InArena a (run s ds) := by
  induction ds generalizing s with
  | nil => exact h
  | cons d ds ih =>
    rw [run_cons]
    exact ih _ ((move_arena s d.mult d.a1 d.a2).trans hs)
      (move_inArena a s d.mult d.a1 d.a2 ha hs h)

lemma init_inArena (a b t a0 : ℝ) (ha : 0 ≤ a) : InArena a (init a b t a0) := by
  constructor <;> intro v hv <;>
    simp only [init, List.mem_singleton] at hv <;> subst hv <;>
    constructor <;> linarith

lemma current_speed_bounds (s : RobotState) (m : ℝ) (hb : 0.05 ≤ s.speed) :
    0.05 ≤ current_speed s m ∧ current_speed s m ≤ 2 * s.speed := by
  unfold current_speed
  refine ⟨le_max_left _ _, max_le (by linarith) ?_⟩
  have h := min_le_left (s.speed * 2) (m * s.speed)
  linarith

lemma run_speedOK (b : ℝ) (ds : List Draw) (s : RobotState) (hb : 0.05 ≤ b)
    (hs : s.speed = b) (h : ∀ v ∈ s.speed_history, 0.05 ≤ v ∧ v ≤ 2 * b) :
    ∀ v ∈ (run s ds).speed_history, 0.05 ≤ v ∧ v ≤ 2 * b := by
  induction ds generalizing s with
  | nil => exact h
  | cons d ds ih =>
    rw [run_cons]
    apply ih _ ((move_speed s d.mult d.a1 d.a2).trans hs)
    intro v hv
    rw [move_speed_history, List.mem_append, List.mem_singleton] at hv
    rcases hv with hv | hv
    · exact h v hv
    · subst hv
      have hcs := current_speed_bounds s d.mult (by rw [hs]; exact hb)
      rw [hs] at hcs
      exact hcs

/-! ### Claim theorems -/

/-- C1: boundary containment invariant.  After any sequence of `step()` calls
following construction with `arena_size > 0`, every x and every y coordinate
recorded in the history lies within `[0, arena_size]` inclusive. -/
theorem boundary_containment (a b t a0 : ℝ) (ha : 0 < a) (ds : List Draw) :
    (∀ v ∈ (run (init a b t a0) ds).x_history, 0 ≤ v ∧ v ≤ a) ∧
    (∀ v ∈ (run (init a b t a0) ds).y_history, 0 ≤ v ∧ v ≤ a) :=
  run_inArena a ds _ ha.le rfl (init_inArena a b t a0 ha.le)

theorem boundary_containment_witness :
    (0 : ℝ) < 10 ∧
    ((∀ v ∈ (run (init 10 1 1 0) [⟨1, 1, 2⟩]).x_history, 0 ≤ v ∧ v ≤ 10) ∧
     (∀ v ∈ (run (init 10 1 1 0) [⟨1, 1, 2⟩]).y_history, 0 ≤ v ∧ v ≤ 10)) :=
  ⟨by norm_num, boundary_containment 10 1 1 0 (by norm_num) [⟨1, 1, 2⟩]⟩

/-- C2 counterexample: the claim quantifies over all `base_speed > 0`, but for
`base_speed = 0.01` the entry seeded at construction equals `0.01`, which is
below the claimed lower bound `0.05`. -/
theorem speed_bound_counterexample :
    (0 : ℝ) < 0.01 ∧
    ¬ (∀ v ∈ (run (init 10 0.01 0.1 0) []).speed_history,
        0.05 ≤ v ∧ v ≤ 2 * 0.01) := by
  refine ⟨by norm_num, fun h => ?_⟩
  have h1 := h 0.01 (by simp [run, init])
  norm_num at h1

/-- C2 amended: for every construction with `base_speed ≥ 0.05` and every
sequence of `step()` calls, every entry of `speed_history` (the seeded one
included) lies in `[0.05, 2 × base_speed]`. -/
theorem speed_bound (a b t a0 : ℝ) (hb : 0.05 ≤ b) (ds : List Draw) :
    ∀ v ∈ (run (init a b t a0) ds).speed_history, 0.05 ≤ v ∧ v ≤ 2 * b := by
  apply run_speedOK b ds (init a b t a0) hb rfl
  intro v hv
  simp only [init, List.mem_singleton] at hv
  subst hv
  exact ⟨hb, by linarith⟩

theorem speed_bound_witness :
    (0.05 : ℝ) ≤ 1 ∧
    ∀ v ∈ (run (init 10 1 1 0) []).speed_history, 0.05 ≤ v ∧ v ≤ 2 * 1 :=
  ⟨by norm_num, speed_bound 10 1 1 0 (by norm_num) []⟩

/-- C6: history growth and alignment.  After exactly `k` steps (a run over a
draw list of length `k`), the x/y histories have length `k + 1`, the speed
history has the same length, and the zipped `position_history` has length
`k + 1` as well. -/
theorem history_growth (a b t a0 : ℝ) (ds : List Draw) :
    (run (init a b t a0) ds).x_history.length = ds.length + 1 ∧
    (run (init a b t a0) ds).y_history.length = ds.length + 1 ∧
    (run (init a b t a0) ds).speed_history.length =
      (run (init a b t a0) ds).x_history.length ∧
    (posHistory (run (init a b t a0) ds)).length = ds.length + 1 := by
  obtain ⟨h1, h2, h3⟩ := run_lengths ds (init a b t a0)
  have e1 : (init a b t a0).x_history.length = 1 := rfl
  have e2 : (init a b t a0).y_history.length = 1 := rfl
  have e3 : (init a b t a0).speed_history.length = 1 := rfl
  rw [e1] at h1
  rw [e2] at h2
  rw [e3] at h3
  refine ⟨by omega, by omega, by omega, ?_⟩
  unfold posHistory
  rw [List.length_zip, h1, h2]
  omega

/-- C9 counterexample: construction with `arena_size = base_speed =
time_step = -1` is not rejected; `__init__` yields the usual fully formed
state (center position, seeded histories). -/
theorem construction_not_rejected :
    get_position (init (-1) (-1) (-1) 0) = (-(1 / 2), -(1 / 2)) ∧
    (init (-1) (-1) (-1) 0).x_history = [-(1 / 2)] ∧
    (init (-1) (-1) (-1) 0).y_history = [-(1 / 2)] ∧
    (init (-1) (-1) (-1) 0).speed_history = [-1] := by
  refine ⟨?_, ?_, ?_, rfl⟩ <;> norm_num [init, get_position]

/-- C9 amended: construction performs no validation.  Even with a non-positive
`arena_size`, `base_speed` or `time_step` it succeeds, producing the usual
fully formed state rather than rejecting; the precondition is unchecked. -/
theorem construction_unchecked (a b t a0 : ℝ) (_h : a ≤ 0 ∨ b ≤ 0 ∨ t ≤ 0) :
    get_position (init a b t a0) = (a / 2, a / 2) ∧
    (init a b t a0).x_history = [a / 2] ∧
    (init a b t a0).y_history = [a / 2] ∧
    (init a b t a0).speed_history = [b] ∧
    (init a b t a0).arena_size = a ∧
    (init a b t a0).speed = b ∧
    (init a b t a0).dt = t :=
  ⟨rfl, rfl, rfl, rfl, rfl, rfl, rfl⟩

theorem construction_unchecked_witness :
    ((-1 : ℝ) ≤ 0 ∨ (-1 : ℝ) ≤ 0 ∨ (-1 : ℝ) ≤ 0) ∧
    (get_position (init (-1) (-1) (-1) 0) = (-1 / 2, -1 / 2) ∧
     (init (-1) (-1) (-1) 0).x_history = [-1 / 2] ∧
     (init (-1) (-1) (-1) 0).y_history = [-1 / 2] ∧
     (init (-1) (-1) (-1) 0).speed_history = [-1] ∧
     (init (-1) (-1) (-1) 0).arena_size = -1 ∧
     (init (-1) (-1) (-1) 0).speed = -1 ∧
     (init (-1) (-1) (-1) 0).dt = -1) :=
  ⟨by norm_num, construction_unchecked (-1) (-1) (-1) 0 (by norm_num)⟩

/-- C10: observable state immediately after construction with a positive arena
size and base speed: the position is the arena center, the histories hold
exactly that point and the base speed, the average speed equals the base
speed, and the collisions count is 0. -/
theorem post_construction_state (a b t a0 : ℝ) (ha : 0 < a) (_hb : 0 < b) :
    get_position (init a b t a0) = (a / 2, a / 2) ∧
    (init a b t a0).x_history = [a / 2] ∧
    (init a b t a0).y_history = [a / 2] ∧
    (init a b t a0).speed_history = [b] ∧
    (get_stats (init a b t a0)).avg_speed = b ∧
    (get_stats (init a b t a0)).collisions = 0 := by
  refine ⟨rfl, rfl, rfl, rfl, ?_, ?_⟩
  · show avgSpeed [b] = b
    simp [avgSpeed]
  · show collisionCount a [a / 2] [a / 2] = 0
    unfold collisionCount
    simp only [List.length_singleton, Finset.sum_range_one, List.getD_cons_zero]
    have hcond : ¬((a / 2 : ℝ) ≤ 0 ∨ a / 2 ≥ a ∨ (a / 2 : ℝ) ≤ 0 ∨ a / 2 ≥ a) := by
      push_neg
      refine ⟨by linarith, by linarith, by linarith, by linarith⟩
    rw [if_neg hcond]

theorem post_construction_state_witness :
    ((0 : ℝ) < 10 ∧ (0 : ℝ) < 0.1) ∧
    (get_position (init 10 0.1 0.1 0) = (10 / 2, 10 / 2) ∧
     (init 10 0.1 0.1 0).x_history = [10 / 2] ∧
     (init 10 0.1 0.1 0).y_history = [10 / 2] ∧
     (init 10 0.1 0.1 0).speed_history = [0.1] ∧
     (get_stats (init 10 0.1 0.1 0)).avg_speed = 0.1 ∧
     (get_stats (init 10 0.1 0.1 0)).collisions = 0) :=
  ⟨⟨by norm_num, by norm_num⟩,
    post_construction_state 10 0.1 0.1 0 (by norm_num) (by norm_num)⟩

/-! ### The collisions statistic versus the exact-equality count -/

lemma collisionCount_eq_boundaryTouchCount (a : ℝ) (xs ys : List ℝ)
    (hlen : xs.length = ys.length)
    (hx : ∀ v ∈ xs, 0 ≤ v ∧ v ≤ a) (hy : ∀ v ∈ ys, 0 ≤ v ∧ v ≤ a) :
    collisionCount a xs ys = boundaryTouchCount a xs ys := by
  unfold collisionCount boundaryTouchCount
  apply Finset.sum_congr rfl
  intro i hi
  rw [Finset.mem_range] at hi
  have hxi : xs.getD i 0 ∈ xs := by
    rw [List.getD_eq_getElem xs 0 hi]
    exact List.getElem_mem _
  have hyi : ys.getD i 0 ∈ ys := by
    rw [List.getD_eq_getElem ys 0 (hlen ▸ hi)]
    exact List.getElem_mem _
  obtain ⟨hx0, hx1⟩ := hx _ hxi
  obtain ⟨hy0, hy1⟩ := hy _ hyi
  refine if_congr ⟨fun h => ?_, fun h => ?_⟩ rfl rfl
  · rcases h with h | h | h | h
    · exact Or.inl (le_antisymm h hx0)
    · exact Or.inr (Or.inl (le_antisymm hx1 h))
    · exact Or.inr (Or.inr (Or.inl (le_antisymm h hy0)))
    · exact Or.inr (Or.inr (Or.inr (le_antisymm hy1 h)))
  · rcases h with h | h | h | h
    · exact Or.inl h.le
    · exact Or.inr (Or.inl h.ge)
    · exact Or.inr (Or.inr (Or.inl h.le))
    · exact Or.inr (Or.inr (Or.inr h.ge))

/-- C3: for every state reachable from a construction with positive arena
size, the `collisions` statistic (computed with the code's `<= 0` / `>=
arena_size` tests) equals the number of history entries whose x or y
coordinate equals exactly 0 or exactly `arena_size`. -/
theorem collisions_stat (a b t a0 : ℝ) (ha : 0 < a) (ds : List Draw) :
    (get_stats (run (init a b t a0) ds)).collisions =
      boundaryTouchCount a (run (init a b t a0) ds).x_history
        (run (init a b t a0) ds).y_history := by
  have hIn := run_inArena a ds (init a b t a0) ha.le rfl (init_inArena a b t a0 ha.le)
  obtain ⟨h1, h2, -⟩ := run_lengths ds (init a b t a0)
  show collisionCount (run (init a b t a0) ds).arena_size _ _ = _
  rw [run_arena]
  show collisionCount a _ _ = _
  apply collisionCount_eq_boundaryTouchCount a _ _ _ hIn.1 hIn.2
  rw [h1, h2]; rfl

theorem collisions_stat_witness :
    (0 : ℝ) < 10 ∧
    (get_stats (run (init 10 1 1 0) [])).collisions =
      boundaryTouchCount 10 (run (init 10 1 1 0) []).x_history
        (run (init 10 1 1 0) []).y_history :=
  ⟨by norm_num, collisions_stat 10 1 1 0 (by norm_num) []⟩

/-! ### Total distance: index form versus consecutive-pair form -/

lemma totalDistance_eq_pathLength (xs : List ℝ) :
    ∀ ys : List ℝ, xs.length = ys.length →
      totalDistance xs ys = pathLength (xs.zip ys) := by
  induction xs with
  | nil =>
    intro ys h
    simp [totalDistance, pathLength]
  | cons x xs0 ih =>
    intro ys h
    cases ys with
    | nil => simp at h
    | cons y ys0 =>
      cases xs0 with
      | nil =>
        cases ys0 with
        | nil => simp [totalDistance, pathLength]
        | cons y2 ys' => simp at h
      | cons x2 xs' =>
        cases ys0 with
        | nil => simp at h
        | cons y2 ys' =>
          have hlen' : (x2 :: xs').length = (y2 :: ys').length := by
            simpa using h
          calc totalDistance (x :: x2 :: xs') (y :: y2 :: ys')
              = Real.sqrt ((x2 - x) ^ 2 + (y2 - y) ^ 2) +
                  totalDistance (x2 :: xs') (y2 :: ys') := by
                unfold totalDistance
                simp only [List.length_cons, Nat.add_sub_cancel]
                rw [Finset.sum_range_succ']
                simp only [List.getD_cons_succ, List.getD_cons_zero]
                rw [add_comm]
            _ = Real.sqrt ((x2 - x) ^ 2 + (y2 - y) ^ 2) +
                  pathLength ((x2 :: xs').zip (y2 :: ys')) := by
                rw [ih (y2 :: ys') hlen']
            _ = pathLength ((x :: x2 :: xs').zip (y :: y2 :: ys')) := by
                rw [List.zip_cons_cons, List.zip_cons_cons, List.zip_cons_cons]
                rw [pathLength]

/-- C7: the `total_distance` statistic equals the sum of Euclidean distances
between each consecutive pair of `position_history` entries, and it equals 0
immediately after construction (history of length 1, no pairs). -/
theorem total_distance_stat (a b t a0 : ℝ) (ds : List Draw) :
    (get_stats (run (init a b t a0) ds)).total_distance =
      pathLength (posHistory (run (init a b t a0) ds)) ∧
    (get_stats (init a b t a0)).total_distance = 0 := by
  constructor
  · obtain ⟨h1, h2, -⟩ := run_lengths ds (init a b t a0)
    exact totalDistance_eq_pathLength _ _ (by rw [h1, h2]; rfl)
  · show totalDistance [a / 2] [a / 2] = 0
    simp [totalDistance]

/-! ### Concrete states used to exercise single steps -/

/-- A concrete state poised to collide with the right wall: with a unit
multiplier the realized speed is 1 and the candidate position is
`(10.5, 5)`. -/
noncomputable def sClampX : RobotState :=
  { arena_size := 10, speed := 1, dt := 1, x := 9.5, y := 5, angle := 0,
    x_history := [9.5], y_history := [5], speed_history := [1] }

/-- A concrete state whose next candidate position collides on both axes:
x moves from 9.5 to 10.5, and y sits on the top wall with zero vertical
displacement, so candidate y = 10 also satisfies the `>=` test. -/
noncomputable def sCorner : RobotState :=
  { arena_size := 10, speed := 1, dt := 1, x := 9.5, y := 10, angle := 0,
    x_history := [9.5], y_history := [10], speed_history := [1] }

lemma current_speed_sClampX : current_speed sClampX 1 = 1 := by
  show max 0.05 (min ((1 : ℝ) * 2) (1 * 1)) = 1
  norm_num

lemma new_x_sClampX : new_x sClampX 1 = 10.5 := by
  unfold new_x
  rw [current_speed_sClampX]
  show (9.5 : ℝ) + 1 * Real.cos 0 * 1 = 10.5
  rw [Real.cos_zero]
  norm_num

lemma new_y_sClampX : new_y sClampX 1 = 5 := by
  unfold new_y
  rw [current_speed_sClampX]
  show (5 : ℝ) + 1 * Real.sin 0 * 1 = 5
  rw [Real.sin_zero]
  norm_num

lemma collX_sClampX : collX sClampX 1 := by
  unfold collX
  rw [new_x_sClampX]
  exact Or.inr (by norm_num [sClampX])

lemma not_collY_sClampX : ¬ collY sClampX 1 := by
  unfold collY
  rw [new_y_sClampX]
  push_neg
  constructor <;> norm_num [sClampX]

lemma current_speed_sCorner : current_speed sCorner 1 = 1 := by
  show max 0.05 (min ((1 : ℝ) * 2) (1 * 1)) = 1
  norm_num

lemma collX_sCorner : collX sCorner 1 := by
  unfold collX
  have hnx : new_x sCorner 1 = 10.5 := by
    unfold new_x
    rw [current_speed_sCorner]
    show (9.5 : ℝ) + 1 * Real.cos 0 * 1 = 10.5
    rw [Real.cos_zero]
    norm_num
  rw [hnx]
  exact Or.inr (by norm_num [sCorner])

lemma collY_sCorner : collY sCorner 1 := by
  unfold collY
  have hny : new_y sCorner 1 = 10 := by
    unfold new_y
    rw [current_speed_sCorner]
    show (10 : ℝ) + 1 * Real.sin 0 * 1 = 10
    rw [Real.sin_zero]
    norm_num
  rw [hny]
  exact Or.inr (by norm_num [sCorner])

/-! ### Heading behaviour -/

/-- C4 counterexample: a step whose candidate position collides on the x
axis (candidate x = 10.5 ≥ arena_size = 10) but whose fresh uniform draw
happens to equal the prior heading leaves the heading numerically unchanged,
refuting the claimed equivalence. -/
theorem heading_change_counterexample :
    ¬ (((move sClampX 1 0 37).1.angle = sClampX.angle) ↔
        ¬(collX sClampX 1 ∨ collY sClampX 1)) := by
  intro hiff
  have hangle : (move sClampX 1 0 37).1.angle = sClampX.angle := by
    show newAngle sClampX 1 0 37 = sClampX.angle
    unfold newAngle
    rw [if_neg not_collY_sClampX, if_pos collX_sClampX]
    rfl
  exact (hiff.mp hangle) (Or.inl collX_sClampX)

/-- C4 amended: the heading is unchanged by a step exactly when the step's
pre-clamp candidate position triggers no boundary test, provided the fresh
uniform draws supplied to the step differ from the current heading (the
code reassigns the heading on a collision, but the reassigned random value
could coincide with the old one). -/
theorem heading_change_iff (s : RobotState) (m a1 a2 : ℝ)
    (h1 : a1 ≠ s.angle) (h2 : a2 ≠ s.angle) :
    ((move s m a1 a2).1.angle = s.angle) ↔ ¬(collX s m ∨ collY s m) := by
  show newAngle s m a1 a2 = s.angle ↔ _
  by_cases hX : collX s m <;> by_cases hY : collY s m <;>
    simp [newAngle, hX, hY, h1, h2]

theorem heading_change_iff_witness :
    ((1 : ℝ) ≠ sClampX.angle ∧ (2 : ℝ) ≠ sClampX.angle) ∧
    (((move sClampX 1 1 2).1.angle = sClampX.angle) ↔
      ¬(collX sClampX 1 ∨ collY sClampX 1)) :=
  ⟨⟨by norm_num [sClampX], by norm_num [sClampX]⟩,
   heading_change_iff sClampX 1 1 2 (by norm_num [sClampX]) (by norm_num [sClampX])⟩

/-- C5 counterexample: a step whose candidate position collides on both axes
consumes two uniform heading draws, not one, and the committed heading is
the second of them. -/
theorem single_draw_counterexample :
    collX sCorner 1 ∧ collY sCorner 1 ∧
    (move sCorner 1 1 2).2 = 2 ∧ (move sCorner 1 1 2).2 ≠ 1 ∧
    (move sCorner 1 1 2).1.angle = 2 := by
  have hdraws : drawsUsed sCorner 1 = 2 := by
    unfold drawsUsed
    rw [if_pos collX_sCorner, if_pos collY_sCorner]
  have hangle : newAngle sCorner 1 1 2 = 2 := by
    unfold newAngle
    rw [if_pos collY_sCorner, if_pos collX_sCorner]
  exact ⟨collX_sCorner, collY_sCorner, hdraws, by rw [show (move sCorner 1 1 2).2 = 2 from hdraws]; norm_num, hangle⟩

/-- C5 amended: on a step whose candidate position collides on both axes the
code performs two uniform heading draws, one per axis; the second draw
overwrites the first, so the committed heading equals the second draw. -/
theorem double_collision_draws (s : RobotState) (m a1 a2 : ℝ)
    (hX : collX s m) (hY : collY s m) :
    (move s m a1 a2).2 = 2 ∧ (move s m a1 a2).1.angle = a2 := by
  constructor
  · show drawsUsed s m = 2
    unfold drawsUsed
    rw [if_pos hX, if_pos hY]
  · show newAngle s m a1 a2 = a2
    unfold newAngle
    rw [if_pos hY, if_pos hX]

theorem double_collision_draws_witness :
    (collX sCorner 1 ∧ collY sCorner 1) ∧
    ((move sCorner 1 1 2).2 = 2 ∧ (move sCorner 1 1 2).1.angle = 2) :=
  ⟨⟨collX_sCorner, collY_sCorner⟩,
   double_collision_draws sCorner 1 1 2 collX_sCorner collY_sCorner⟩

/-! ### The deterministic clamp scenario -/

lemma collisionCount_append (a u v : ℝ) (xs ys : List ℝ)
    (h : xs.length = ys.length) :
    collisionCount a (xs ++ [u]) (ys ++ [v]) =
      collisionCount a xs ys +
        (if u ≤ 0 ∨ u ≥ a ∨ v ≤ 0 ∨ v ≥ a then 1 else 0) := by
  unfold collisionCount
  rw [List.length_append, List.length_singleton, Finset.sum_range_succ]
  congr 1
  · apply Finset.sum_congr rfl
    intro i hi
    rw [Finset.mem_range] at hi
    rw [List.getD_append _ _ _ _ hi, List.getD_append _ _ _ _ (h ▸ hi)]
  · have hu : (xs ++ [u]).getD xs.length 0 = u := by
      rw [List.getD_append_right _ _ _ _ (le_refl _), Nat.sub_self]
      rfl
    have hv : (ys ++ [v]).getD xs.length 0 = v := by
      rw [h, List.getD_append_right _ _ _ _ (le_refl _), Nat.sub_self]
      rfl
    rw [hu, hv]

/-- C8: deterministic boundary clamp scenario.  From a state with
`arena_size = 10`, `time_step = 1`, position `(9.5, 5)`, heading 0 and a
multiplier realizing speed exactly 1, one step yields candidate `(10.5, 5)`,
collides on the x axis only, commits `(10, 5)` with x clamped to the arena
size, sets the heading to the one fresh draw it consumes, and the collisions
statistic afterwards is larger by exactly (hence at least) 1. -/
theorem clamp_scenario (s : RobotState) (m a1 a2 : ℝ)
    (harena : s.arena_size = 10) (hdt : s.dt = 1) (hx : s.x = 9.5)
    (hy : s.y = 5) (hangle : s.angle = 0) (hcs : current_speed s m = 1)
    (hlen : s.x_history.length = s.y_history.length) :
    new_x s m = 10.5 ∧ new_y s m = 5 ∧
    collX s m ∧ ¬ collY s m ∧
    (move s m a1 a2).1.x = 10 ∧ (move s m a1 a2).1.y = 5 ∧
    (move s m a1 a2).1.angle = a1 ∧ (move s m a1 a2).2 = 1 ∧
    (get_stats (move s m a1 a2).1).collisions = (get_stats s).collisions + 1 ∧
    (get_stats s).collisions + 1 ≤ (get_stats (move s m a1 a2).1).collisions := by
  have hnx : new_x s m = 10.5 := by
    unfold new_x
    rw [hcs, hangle, Real.cos_zero, hx, hdt]
    norm_num
  have hny : new_y s m = 5 := by
    unfold new_y
    rw [hcs, hangle, Real.sin_zero, hy, hdt]
    norm_num
  have hcX : collX s m := by
    unfold collX
    rw [hnx, harena]
    exact Or.inr (by norm_num)
  have hcY : ¬ collY s m := by
    unfold collY
    rw [hny, harena]
    push_neg
    constructor <;> norm_num
  have hcomX : committedX s m = 10 := by
    unfold committedX
    rw [if_pos (Or.inl hcX), hnx, harena]
    unfold clip
    norm_num
  have hcomY : committedY s m = 5 := by
    unfold committedY
    rw [if_pos (Or.inl hcX), hny, harena]
    unfold clip
    norm_num
  have hcount : (get_stats (move s m a1 a2).1).collisions =
      (get_stats s).collisions + 1 := by
    show collisionCount (move s m a1 a2).1.arena_size
        (move s m a1 a2).1.x_history (move s m a1 a2).1.y_history =
      collisionCount s.arena_size s.x_history s.y_history + 1
    rw [move_arena, move_x_history, move_y_history, hcomX, hcomY,
      collisionCount_append s.arena_size 10 5 _ _ hlen]
    congr 1
    rw [harena, if_pos (Or.inr (Or.inl (by norm_num : (10 : ℝ) ≥ 10)))]
  refine ⟨hnx, hny, hcX, hcY, hcomX, hcomY, ?_, ?_, hcount, by omega⟩
  · show newAngle s m a1 a2 = a1
    unfold newAngle
    rw [if_neg hcY, if_pos hcX]
  · show drawsUsed s m = 1
    unfold drawsUsed
    rw [if_pos hcX, if_neg hcY]

theorem clamp_scenario_witness :
    (sClampX.arena_size = 10 ∧ sClampX.dt = 1 ∧ sClampX.x = 9.5 ∧
     sClampX.y = 5 ∧ sClampX.angle = 0 ∧ current_speed sClampX 1 = 1 ∧
     sClampX.x_history.length = sClampX.y_history.length) ∧
    (new_x sClampX 1 = 10.5 ∧ new_y sClampX 1 = 5 ∧
     collX sClampX 1 ∧ ¬ collY sClampX 1 ∧
     (move sClampX 1 1 2).1.x = 10 ∧ (move sClampX 1 1 2).1.y = 5 ∧
     (move sClampX 1 1 2).1.angle = 1 ∧ (move sClampX 1 1 2).2 = 1 ∧
     (get_stats (move sClampX 1 1 2).1).collisions =
       (get_stats sClampX).collisions + 1 ∧
     (get_stats sClampX).collisions + 1 ≤
       (get_stats (move sClampX 1 1 2).1).collisions) :=
  ⟨⟨rfl, rfl, rfl, rfl, rfl, current_speed_sClampX, rfl⟩,
   clamp_scenario sClampX 1 1 2 rfl rfl rfl rfl rfl current_speed_sClampX rfl⟩

end BrownianMotion
